import Mathlib

/-!
Verification development for the DHL logistics ETL pipeline
(`dhl_etl_script.py`): a shallow embedding of the transformer
(`clean_and_transform_data`) and of the loader (`load_dimensions`,
`load_fact_table`), with theorems for the specified properties.
-/

namespace DHL

/-- A calendar date (proleptic Gregorian), the result of a successful Python
`datetime.strptime`. -/
structure Date where
  year : Nat
  month : Nat
  day : Nat
deriving DecidableEq, Repr

/-- Gregorian leap-year test, as used by `datetime` for date validity. -/
def isLeap (y : Nat) : Bool :=
  (y % 4 == 0 && y % 100 != 0) || (y % 400 == 0)

/-- Number of days of month `m` in year `y` (`datetime` validity). -/
def daysInMonth (y m : Nat) : Nat :=
  if m = 2 then (if isLeap y then 29 else 28)
  else if m = 4 ∨ m = 6 ∨ m = 9 ∨ m = 11 then 30
  else 31

/-- The `datetime(year, month, day)` constructor: validates the ranges
(`MINYEAR = 1`, `MAXYEAR = 9999`, month 1-12, day within the month), raising
`ValueError` (modelled as `none`) otherwise. -/
def mkValidDate (y m d : Nat) : Option Date :=
  if 1 ≤ y ∧ y ≤ 9999 ∧ 1 ≤ m ∧ m ≤ 12 ∧ 1 ≤ d ∧ d ≤ daysInMonth y m then
    some ⟨y, m, d⟩
  else none

/-- Value of an ASCII digit character, `none` on a non-digit. -/
def digitVal (c : Char) : Option Nat :=
  if 48 ≤ c.toNat ∧ c.toNat ≤ 57 then some (c.toNat - 48) else none

/-- The `%Y` directive of CPython `_strptime`: exactly four digits. -/
def parse4Digits : List Char → Option (Nat × List Char)
  | a :: b :: c :: d :: rest =>
    match digitVal a, digitVal b, digitVal c, digitVal d with
    | some w, some x, some y, some z => some (w * 1000 + x * 100 + y * 10 + z, rest)
    | _, _, _, _ => none
  | _ => none

/-- The `%m` / `%d` directives of CPython `_strptime` (regexes
`1[0-2]|0[1-9]|[1-9]` resp. `3[01]|[12]\d|0[1-9]|[1-9]`): the possible
matches in regex order, each with the remaining input.  A two-digit match
(value `1..maxTwo`) is preferred; a single nonzero digit is the backtracking
alternative. -/
def numAlts (maxTwo : Nat) : List Char → List (Nat × List Char)
  | c1 :: c2 :: rest =>
    (match digitVal c1, digitVal c2 with
     | some a, some b =>
       if 1 ≤ 10 * a + b ∧ 10 * a + b ≤ maxTwo then [(10 * a + b, rest)] else []
     | _, _ => []) ++
    (match digitVal c1 with
     | some a => if 1 ≤ a then [(a, c2 :: rest)] else []
     | none => [])
  | [c1] =>
    (match digitVal c1 with
     | some a => if 1 ≤ a then [(a, ([] : List Char))] else []
     | none => [])
  | [] => []

/-- A literal `-` separator of the format string. -/
def expectDash : List Char → Option (List Char)
  | c :: rest => if c = '-' then some rest else none
  | [] => none

/-- First success of `f` over the alternatives, in order (regex
backtracking). -/
def firstSome {α β : Type} (f : α → Option β) : List α → Option β
  | [] => none
  | a :: as =>
    match f a with
    | some b => some b
    | none => firstSome f as

/-- `datetime.strptime(s, '%Y-%m-%d')`: four-digit year, dash, month, dash,
day, end of input, then date validation; `ValueError` is `none`. -/
def strptimeYMD (s : String) : Option Date :=
  match parse4Digits s.data with
  | none => none
  | some (y, r1) =>
    match expectDash r1 with
    | none => none
    | some r2 =>
      firstSome (fun mc =>
        match expectDash mc.2 with
        | none => none
        | some r3 =>
          firstSome (fun dc =>
            if dc.2 = [] then mkValidDate y mc.1 dc.1 else none)
            (numAlts 31 r3))
        (numAlts 12 r2)

/-- `datetime.strptime(s, '%d-%m-%Y')`: day, dash, month, dash, four-digit
year, end of input, then date validation; `ValueError` is `none`. -/
def strptimeDMY (s : String) : Option Date :=
  firstSome (fun dc =>
    match expectDash dc.2 with
    | none => none
    | some r1 =>
      firstSome (fun mc =>
        match expectDash mc.2 with
        | none => none
        | some r2 =>
          match parse4Digits r2 with
          | some (y, []) => mkValidDate y mc.1 dc.1
          | _ => none)
        (numAlts 12 r1))
    (numAlts 31 s.data)

/-- `parse_mixed_formats` of the transformer: `None` maps to `NaT`
(modelled as `none`); otherwise try `%Y-%m-%d`, then on `ValueError` try
`%d-%m-%Y`, else `NaT`. -/
def parse_mixed_formats : Option String → Option Date
  | none => none
  | some s =>
    match strptimeYMD s with
    | some d => some d
    | none => strptimeDMY s

/-- Lexicographic `<=` on dates, as `datetime` compares. -/
def dateLE (a b : Date) : Bool :=
  decide (a.year < b.year ∨ (a.year = b.year ∧
    (a.month < b.month ∨ (a.month = b.month ∧ a.day ≤ b.day))))

/-- Lexicographic `<` on dates. -/
def dateLT (a b : Date) : Bool :=
  decide (a.year < b.year ∨ (a.year = b.year ∧
    (a.month < b.month ∨ (a.month = b.month ∧ a.day < b.day))))

/-- `<=` on the datetime columns: any comparison against `NaT` is `False`
in pandas. -/
def optLE : Option Date → Option Date → Bool
  | some a, some b => dateLE a b
  | _, _ => false

/-- `>` on the datetime columns (`a > b` is `b < a`); any comparison
against `NaT` is `False`. -/
def optGT : Option Date → Option Date → Bool
  | some a, some b => dateLT b a
  | _, _ => false

/-- The `np.select` chain deriving `ShipmentStatus` from the promised and
actual delivery dates: conditions evaluated in order, first match wins,
default `"Unknown"`. -/
def deriveStatus (promised actual : Option Date) : String :=
  if actual.isNone then "In-Transit"
  else if optLE actual promised then "On-Time"
  else if optGT actual promised then "Delayed"
  else "Unknown"

/-- ASCII lower-casing on a codepoint. -/
def lowerNat (n : Nat) : Nat := if 65 ≤ n ∧ n ≤ 90 then n + 32 else n

/-- ASCII upper-casing on a codepoint. -/
def upperNat (n : Nat) : Nat := if 97 ≤ n ∧ n ≤ 122 then n - 32 else n

/-- ASCII letter test on a codepoint (the cased characters of this
dataset). -/
def isAlphaNat (n : Nat) : Bool :=
  decide ((65 ≤ n ∧ n ≤ 90) ∨ (97 ≤ n ∧ n ≤ 122))

/-- Python `str.title` on a codepoint list (ASCII model): a cased character
following a cased character is lower-cased, one following a non-cased
character is upper-cased; non-cased characters pass through. The flag is
whether the previous character was cased. -/
def titleNats : Bool → List Nat → List Nat
  | _, [] => []
  | prev, c :: rest =>
    if isAlphaNat c then
      (if prev then lowerNat c else upperNat c) :: titleNats true rest
    else c :: titleNats false rest

/-- Python `str.title` on strings (ASCII model). -/
def pyTitle (s : String) : String :=
  String.mk ((titleNats false (s.data.map Char.toNat)).map Char.ofNat)

/-- The carrier-name cleaning of the transformer:
`.str.title()` (which maps a missing value to a missing value), then
`.replace('', 'Unknown')`, then `.fillna('Unknown')`. -/
def normalizeCarrier : Option String → String
  | none => "Unknown"
  | some s => if pyTitle s = "" then "Unknown" else pyTitle s

/-- A working row of the cleaned DataFrame: the raw columns with dates
parsed (`NaT` as `none`), the carrier possibly still raw (`None` as
`none`), the cost possibly negative or missing (`NaN` as `none`), and the
status column (the raw status is `None`, carried as `""` until
`np.select` overwrites it). -/
structure WRow where
  ShipmentID : String
  ShipDate : Option Date
  PromisedDeliveryDate : Option Date
  ActualDeliveryDate : Option Date
  OriginCity : String
  OriginState : String
  DestinationCity : String
  DestinationState : String
  ShippingCost : Option Rat
  CarrierName : Option String
  ShipmentStatus : String
deriving DecidableEq, Repr

/-- `abs` of numpy / pandas on one value. -/
def ratAbs (c : Rat) : Rat := if c < 0 then -c else c

/-- Pandas `median` over the known values: sort ascending, take the middle
element (odd length) or the mean of the two middle elements (even length);
`NaN` (modelled `none`) on an empty list. -/
def median (l : List Rat) : Option Rat :=
  let s := List.insertionSort (· ≤ ·) l
  if s.length = 0 then none
  else if s.length % 2 = 1 then some (s.getD (s.length / 2) 0)
  else some ((s.getD (s.length / 2 - 1) 0 + s.getD (s.length / 2) 0) / 2)

/-- `groupby('CarrierName')['ShippingCost'].transform('median')` at one
group key: the median of the known costs of the rows sharing that carrier
name (`NaN` when the group has no known cost). -/
def groupMedianCost (rows : List WRow) (carrier : Option String) : Option Rat :=
  median ((rows.filter (fun r => r.CarrierName == carrier)).filterMap
    (fun r => r.ShippingCost))

/-- `df['ShippingCost'].abs()` on one row. -/
def absRow (r : WRow) : WRow :=
  { r with ShippingCost := r.ShippingCost.map ratAbs }

/-- `fillna(median_costs)` on one row: a missing cost becomes the median of
its carrier group, computed over the batch `r1`. -/
def groupFillRow (r1 : List WRow) (r : WRow) : WRow :=
  { r with ShippingCost :=
      r.ShippingCost.orElse (fun _ => groupMedianCost r1 r.CarrierName) }

/-- The global fallback median of the code: the median of the cost column
after the group-median fill (line 139 runs on the column produced by lines
136-138). -/
def globalMedianOf (rows : List WRow) : Option Rat :=
  let r1 := rows.map absRow
  median ((r1.map (groupFillRow r1)).filterMap (fun r => r.ShippingCost))

/-- The cost-cleaning step of the transformer: absolute value, `fillna`
with the per-carrier median, then `fillna` with the median of the
resulting column. -/
def cleanCosts (rows : List WRow) : List WRow :=
  let r1 := rows.map absRow
  let r2 := r1.map (groupFillRow r1)
  let gm := median (r2.filterMap (fun r => r.ShippingCost))
  r2.map (fun r => { r with ShippingCost := r.ShippingCost.orElse (fun _ => gm) })

/-- The per-row view of cost cleaning: the batch statistics (per-carrier
medians over the absolute-valued known costs, then the global median of
the group-filled column) are fixed by the batch, then applied to one
row. -/
def costFill (batch : List WRow) (r : WRow) : WRow :=
  let r1 := batch.map absRow
  let x := groupFillRow r1 (absRow r)
  { x with ShippingCost := x.ShippingCost.orElse (fun _ => globalMedianOf batch) }

/-- A row of the counterexample batch (the non-cost columns are
irrelevant to cost cleaning). -/
def mkRow (sid : String) (carrier : Option String) (cost : Option Rat) : WRow :=
  { ShipmentID := sid, ShipDate := some ⟨2023, 1, 1⟩, PromisedDeliveryDate := none,
    ActualDeliveryDate := none, OriginCity := "New York", OriginState := "NY",
    DestinationCity := "Boston", DestinationState := "MA",
    ShippingCost := cost, CarrierName := carrier, ShipmentStatus := "" }

/-- A batch on which the code's global fallback differs from the spec's:
carrier A has known costs `{1}` plus two missing, carriers B and C have
`{3}` resp. `{9}`, and carrier D has only a missing cost. -/
def batchC7 : List WRow :=
  [mkRow "DHL-1" (some "A") (some 1), mkRow "DHL-2" (some "A") none,
   mkRow "DHL-3" (some "A") none, mkRow "DHL-4" (some "B") (some 3),
   mkRow "DHL-5" (some "C") (some 9), mkRow "DHL-6" (some "D") none]

/-- Imputation as the spec words it (for comparison with `cleanCosts`):
the per-carrier medians AND the single global fallback median are both
computed over the known, absolute-valued costs of the whole batch before
any gap is filled, then applied per row with the two-tier fallback. -/
def cleanCostsSpecModel (rows : List WRow) : List WRow :=
  let r1 := rows.map absRow
  let gm := median (r1.filterMap (fun r => r.ShippingCost))
  r1.map (fun r =>
    { r with ShippingCost := (Option.orElse
        (r.ShippingCost.orElse (fun _ => groupMedianCost r1 r.CarrierName))
        (fun _ => gm)) })

/-- A one-row batch with a negative cost, for the C8 witness. -/
def rowsC8 : List WRow := [mkRow "DHL-1" (some "A") (some (-5))]

/-- `pd.to_datetime(col, errors='coerce')` on the promised/actual delivery
columns, modelled on the ISO `YYYY-MM-DD` strings this dataset carries: a
parse failure or a missing value coerces silently to `NaT`. -/
def to_datetime_coerce : Option String → Option Date
  | none => none
  | some s => strptimeYMD s

/-- A raw record of the generated dataset before cleaning: the date columns
are strings or absent, the cost is a signed float or missing, the carrier
is a string or missing; the raw status column (always `None`) is not
carried. -/
structure RawRecord where
  ShipmentID : String
  ShipDate : Option String
  PromisedDeliveryDate : Option String
  ActualDeliveryDate : Option String
  OriginCity : String
  OriginState : String
  DestinationCity : String
  DestinationState : String
  ShippingCost : Option Rat
  CarrierName : Option String
deriving DecidableEq, Repr

/-- The date-parsing step of `clean_and_transform_data` on one row:
`ShipDate` through `parse_mixed_formats`, the two delivery dates through
`pd.to_datetime(errors='coerce')`. -/
def parseDatesRow (r : RawRecord) : WRow :=
  { ShipmentID := r.ShipmentID,
    ShipDate := parse_mixed_formats r.ShipDate,
    PromisedDeliveryDate := to_datetime_coerce r.PromisedDeliveryDate,
    ActualDeliveryDate := to_datetime_coerce r.ActualDeliveryDate,
    OriginCity := r.OriginCity, OriginState := r.OriginState,
    DestinationCity := r.DestinationCity, DestinationState := r.DestinationState,
    ShippingCost := r.ShippingCost, CarrierName := r.CarrierName,
    ShipmentStatus := "" }

/-- `clean_and_transform_data`: parse the date columns, drop the rows whose
`ShipDate` is missing, clean the carrier names, clean the shipping costs,
and derive `ShipmentStatus`. -/
def clean_and_transform_data (df : List RawRecord) : List WRow :=
  let d1 := df.map parseDatesRow
  let d2 := d1.filter (fun r => r.ShipDate.isSome)
  let d3 := d2.map (fun r => { r with CarrierName := some (normalizeCarrier r.CarrierName) })
  let d4 := cleanCosts d3
  d4.map (fun r =>
    { r with ShipmentStatus := deriveStatus r.PromisedDeliveryDate r.ActualDeliveryDate })

/-- Days since the epoch 1970-01-01 of a proleptic-Gregorian date, by the
standard civil-from-days computation; for `year ≥ 1` every intermediate
division acts on a non-negative value. -/
def daysFromCivil (y m d : Nat) : Int :=
  let y' : Int := (y : Int) - (if m ≤ 2 then 1 else 0)
  let era : Int := y' / 400
  let yoe : Int := y' - era * 400
  let mp : Int := ((m : Int) + 9) % 12
  let doy : Int := (153 * mp + 2) / 5 + (d : Int) - 1
  let doe : Int := yoe * 365 + yoe / 4 - yoe / 100 + doy
  era * 146097 + doe - 719468

/-- `dt.weekday` of pandas: Monday = 0 … Sunday = 6 (1970-01-01 was a
Thursday, weekday 3). -/
def pyWeekday (dt : Date) : Nat :=
  (Int.emod (daysFromCivil dt.year dt.month dt.day + 3) 7).toNat

/-- `dt.strftime('%Y%m%d').astype(int)` for the four-digit years of this
dataset. -/
def dateKey (dt : Date) : Nat := dt.year * 10000 + dt.month * 100 + dt.day

/-- `dt.quarter` of pandas. -/
def quarterOf (m : Nat) : Nat := (m + 2) / 3

/-- A row of `dim_locations`. -/
structure LocationRow where
  LocationID : Nat
  City : String
  State : String
deriving DecidableEq, Repr

/-- A row of `dim_carriers`. -/
structure CarrierRow where
  CarrierID : Nat
  CarrierName : String
deriving DecidableEq, Repr

/-- A row of `dim_dates`. -/
structure DateRow where
  DateKey : Nat
  FullDate : Date
  Year : Nat
  Quarter : Nat
  Month : Nat
  Day : Nat
  Weekday : Nat
deriving DecidableEq, Repr

/-- A row of `fact_shipments` (the foreign keys are nullable). -/
structure FactRow where
  ShipmentFactID : Nat
  ShipmentID : String
  ShipDateKey : Option Nat
  PromisedDateKey : Option Nat
  ActualDeliveryDateKey : Option Nat
  OriginLocationID : Option Nat
  DestinationLocationID : Option Nat
  CarrierID : Option Nat
  ShippingCost : Option Rat
  ShipmentStatus : String
deriving DecidableEq, Repr

/-- The MySQL storage: the four tables of the star schema plus the
auto-increment counters. -/
structure DB where
  locations : List LocationRow
  carriers : List CarrierRow
  dates : List DateRow
  facts : List FactRow
  nextLocationId : Nat
  nextCarrierId : Nat
  nextFactId : Nat
deriving DecidableEq, Repr

/-- A clean shipment record as the loader consumes it: ship date present
(rows without one were dropped by the transformer), delivery dates
optional, carrier canonical. -/
structure CleanRecord where
  ShipmentID : String
  ShipDate : Date
  PromisedDeliveryDate : Option Date
  ActualDeliveryDate : Option Date
  OriginCity : String
  OriginState : String
  DestinationCity : String
  DestinationState : String
  ShippingCost : Option Rat
  CarrierName : String
  ShipmentStatus : String
deriving DecidableEq, Repr

/-- Natural-key presence in `dim_locations` (the unique key `(City,
State)`). -/
def hasLoc (db : DB) (c s : String) : Bool :=
  db.locations.any (fun l => l.City == c && l.State == s)

/-- Natural-key presence in `dim_carriers` (unique `CarrierName`). -/
def hasCarrier (db : DB) (n : String) : Bool :=
  db.carriers.any (fun l => l.CarrierName == n)

/-- Key presence in `dim_dates`: `INSERT IGNORE` skips a row clashing on
the primary key `DateKey` or on the unique key `FullDate`. -/
def hasDateRow (db : DB) (r : DateRow) : Bool :=
  db.dates.any (fun l => l.DateKey == r.DateKey || l.FullDate == r.FullDate)

/-- Key presence in `fact_shipments` (unique `ShipmentID`). -/
def hasFact (db : DB) (sid : String) : Bool :=
  db.facts.any (fun f => f.ShipmentID == sid)

/-- `INSERT IGNORE INTO dim_locations`. -/
def insertLocation (db : DB) (c s : String) : DB :=
  if hasLoc db c s then db
  else { db with
      locations := db.locations ++ [⟨db.nextLocationId, c, s⟩]
      nextLocationId := db.nextLocationId + 1 }

/-- `INSERT IGNORE INTO dim_carriers`. -/
def insertCarrier (db : DB) (n : String) : DB :=
  if hasCarrier db n then db
  else { db with
      carriers := db.carriers ++ [⟨db.nextCarrierId, n⟩]
      nextCarrierId := db.nextCarrierId + 1 }

/-- The `dim_dates` row computed for one date: key and derived fields are
functions of the date alone. -/
def mkDateRow (dt : Date) : DateRow :=
  { DateKey := dateKey dt, FullDate := dt, Year := dt.year,
    Quarter := quarterOf dt.month, Month := dt.month, Day := dt.day,
    Weekday := pyWeekday dt }

/-- `INSERT IGNORE INTO dim_dates`. -/
def insertDate (db : DB) (r : DateRow) : DB :=
  if hasDateRow db r then db
  else { db with dates := db.dates ++ [r] }

/-- `INSERT IGNORE INTO fact_shipments`. -/
def insertFact (db : DB) (sid : String) (sk pk ak oid did cid : Option Nat)
    (cost : Option Rat) (status : String) : DB :=
  if hasFact db sid then db
  else { db with
      facts := db.facts ++ [⟨db.nextFactId, sid, sk, pk, ak, oid, did, cid, cost, status⟩]
      nextFactId := db.nextFactId + 1 }

/-- First-occurrence deduplication (`drop_duplicates` / `unique`),
with the already-seen values as accumulator. -/
def dedupAux {α : Type} [BEq α] (seen : List α) : List α → List α
  | [] => []
  | a :: as =>
    if seen.contains a then dedupAux seen as else a :: dedupAux (a :: seen) as

/-- First-occurrence deduplication of a list. -/
def dedupFirst {α : Type} [BEq α] (l : List α) : List α := dedupAux [] l

/-- The distinct `(City, State)` pairs: origin rows stacked above
destination rows, duplicates dropped keeping the first occurrence. -/
def locationList (df : List CleanRecord) : List (String × String) :=
  dedupFirst ((df.map (fun r => (r.OriginCity, r.OriginState)))
    ++ df.map (fun r => (r.DestinationCity, r.DestinationState)))

/-- The distinct carrier names, in order of first occurrence. -/
def carrierList (df : List CleanRecord) : List String :=
  dedupFirst (df.map (fun r => r.CarrierName))

/-- The distinct dates of the three date columns stacked, missing values
dropped, duplicates dropped keeping the first occurrence. -/
def dateList (df : List CleanRecord) : List Date :=
  dedupFirst (((df.map (fun r => some r.ShipDate))
    ++ df.map (fun r => r.PromisedDeliveryDate)
    ++ df.map (fun r => r.ActualDeliveryDate)).filterMap id)

/-- `load_dimensions`: `INSERT IGNORE` the distinct locations, carriers
and date rows, then `conn.commit()`. `fail` models a storage `Error`
raised during the phase: the handler prints the error, performs
`conn.rollback()` (no partial dimension state persists) and the function
returns normally. -/
def load_dimensions (fail : Bool) (db : DB) (df : List CleanRecord) : DB :=
  let db1 := (locationList df).foldl (fun a p => insertLocation a p.1 p.2) db
  let db2 := (carrierList df).foldl (fun a n => insertCarrier a n) db1
  let db3 := (dateList df).foldl (fun a dt => insertDate a (mkDateRow dt)) db2
  if fail then db else db3

/-- `load_fact_table`: build the lookup maps by reading back the dimension
tables, resolve the six foreign keys per record (`None` when the date is
absent or a key is not found), `INSERT IGNORE` the fact rows in input
order, then `conn.commit()`. `fail` models a storage `Error` raised during
the phase: the handler prints the error, performs `conn.rollback()` and
the function returns normally. -/
def load_fact_table (fail : Bool) (db : DB) (df : List CleanRecord) : DB :=
  let locMap := fun (c s : String) =>
    (db.locations.find? (fun l => l.City == c && l.State == s)).map
      (fun l => l.LocationID)
  let carrierMap := fun (n : String) =>
    (db.carriers.find? (fun l => l.CarrierName == n)).map (fun l => l.CarrierID)
  let dateMap := fun (dt : Date) =>
    (db.dates.find? (fun l => l.FullDate == dt)).map (fun l => l.DateKey)
  let db' := df.foldl (fun a r =>
    insertFact a r.ShipmentID (dateMap r.ShipDate)
      (r.PromisedDeliveryDate.bind dateMap) (r.ActualDeliveryDate.bind dateMap)
      (locMap r.OriginCity r.OriginState) (locMap r.DestinationCity r.DestinationState)
      (carrierMap r.CarrierName) r.ShippingCost r.ShipmentStatus) db
  if fail then db else db'

/-- The load sequence of `__main__`: `load_dimensions` then
`load_fact_table`, called unconditionally in that order on the same
connection. -/
def mainLoad (dimFail factFail : Bool) (db : DB) (df : List CleanRecord) : DB :=
  load_fact_table factFail (load_dimensions dimFail db df) df

/-- The empty database right after schema creation (MySQL auto-increment
counters start at 1). -/
def emptyDB : DB := ⟨[], [], [], [], 1, 1, 1⟩

/-- A clean record for the concrete loading scenarios. -/
def recC1a : CleanRecord :=
  { ShipmentID := "DHL-1", ShipDate := ⟨2023, 7, 15⟩,
    PromisedDeliveryDate := some ⟨2023, 7, 20⟩, ActualDeliveryDate := none,
    OriginCity := "New York", OriginState := "NY",
    DestinationCity := "Boston", DestinationState := "MA",
    ShippingCost := some 10, CarrierName := "Speedyship",
    ShipmentStatus := "In-Transit" }

/-- A second record sharing `recC1a`'s shipment id but with a different
cost. -/
def recC1b : CleanRecord := { recC1a with ShippingCost := some 20 }

/-- The scenario batch: two records with identical `ShipmentID` and
different costs. -/
def recsC1 : List CleanRecord := [recC1a, recC1b]

/-- Consistency of a `dim_dates` row: the surrogate key is the date
formatted as a `YYYYMMDD` integer and every derived field is the
corresponding pure function of `FullDate`. -/
def dateRowConsistent (r : DateRow) : Bool :=
  r.DateKey == r.FullDate.year * 10000 + r.FullDate.month * 100 + r.FullDate.day
    && r.Year == r.FullDate.year && r.Quarter == (r.FullDate.month + 2) / 3
    && r.Month == r.FullDate.month && r.Day == r.FullDate.day
    && r.Weekday == pyWeekday r.FullDate

/-- A value held by a DataFrame variable: the raw table as generated, or
the table after cleaning (the column dtypes change, so the two shapes are
distinct). -/
inductive DFVal where
  | raw (rows : List RawRecord)
  | cleaned (rows : List WRow)
deriving DecidableEq, Repr

/-- `clean_and_transform_data` as the caller observes it: the function
mutates the DataFrame object behind reference `r` in place (column
assignments and `dropna(..., inplace=True)`) and returns the very same
reference (`return df`); every other reference of the store is
untouched. -/
def clean_and_transform_inplace (r : Nat) (store : Nat → DFVal) :
    Nat × (Nat → DFVal) :=
  match store r with
  | .raw rows =>
    (r, fun i => if i = r then .cleaned (clean_and_transform_data rows) else store i)
  | _ => (r, store)

/-- A raw record for the C10 witness store. -/
def rawC10 : RawRecord :=
  { ShipmentID := "DHL-1", ShipDate := some "2023-07-15",
    PromisedDeliveryDate := some "2023-07-20", ActualDeliveryDate := none,
    OriginCity := "New York", OriginState := "NY",
    DestinationCity := "Boston", DestinationState := "MA",
    ShippingCost := some 10, CarrierName := some "SpeedyShip" }

/-- A two-cell store for the C10 witness: cell 0 holds a one-row raw
table, cell 1 an empty raw table. -/
def storeC10 : Nat → DFVal := fun i => if i = 0 then .raw [rawC10] else .raw []

/-- C4: ship-date parsing tries the formats in order — `%Y-%m-%d` first,
then `%d-%m-%Y` — stopping at the first success: whenever the first format
succeeds its result is the parse result; `"2023-04-05"` parses via the
first rule to year 2023, month 4, day 5; `"05-04-2023"` fails the first
rule and parses via the second to year 2023, month 4, day 5. -/
theorem c4_format_order :
    (∀ s d, strptimeYMD s = some d → parse_mixed_formats (some s) = some d)
    ∧ parse_mixed_formats (some "2023-04-05") = some ⟨2023, 4, 5⟩
    ∧ strptimeYMD "05-04-2023" = none
    ∧ parse_mixed_formats (some "05-04-2023") = some ⟨2023, 4, 5⟩ := by
  refine ⟨fun s d h => ?_, by decide, by decide, by decide⟩
  simp [parse_mixed_formats, h]

/-- C4 witness: the first-success rule applied at the concrete input
`"2023-04-05"`. -/
theorem c4_format_order_witness :
    parse_mixed_formats (some "2023-04-05") = some ⟨2023, 4, 5⟩ :=
  c4_format_order.1 "2023-04-05" ⟨2023, 4, 5⟩ (by decide)

/-- C5: status derivation applies the four rules in precedence order with
first match winning — actual missing gives In-Transit, actual on or before
promised gives On-Time, actual after promised gives Delayed, anything else
(promised missing while actual present) gives Unknown — together with the
four concrete scenarios of the spec (promised 2023-01-10, and promised
absent with actual 2023-01-09). -/
theorem c5_status_rules :
    (∀ p, deriveStatus p none = "In-Transit")
    ∧ (∀ p a, dateLE a p = true → deriveStatus (some p) (some a) = "On-Time")
    ∧ (∀ p a, dateLT p a = true → deriveStatus (some p) (some a) = "Delayed")
    ∧ (∀ a, deriveStatus none (some a) = "Unknown")
    ∧ deriveStatus (some ⟨2023, 1, 10⟩) none = "In-Transit"
    ∧ deriveStatus (some ⟨2023, 1, 10⟩) (some ⟨2023, 1, 9⟩) = "On-Time"
    ∧ deriveStatus (some ⟨2023, 1, 10⟩) (some ⟨2023, 1, 11⟩) = "Delayed"
    ∧ deriveStatus none (some ⟨2023, 1, 9⟩) = "Unknown" := by
  refine ⟨fun p => rfl, fun p a h => ?_, fun p a h => ?_, fun a => rfl,
    by decide, by decide, by decide, by decide⟩
  · simp [deriveStatus, optLE, h]
  · have hle : dateLE a p = false := by
      simp only [dateLT, decide_eq_true_eq] at h
      simp only [dateLE, decide_eq_false_iff_not]
      omega
    simp [deriveStatus, optLE, optGT, hle, h]

/-- C5 witness: the On-Time and Delayed rules applied at concrete dates. -/
theorem c5_status_rules_witness :
    deriveStatus (some ⟨2024, 5, 5⟩) (some ⟨2024, 5, 4⟩) = "On-Time"
    ∧ deriveStatus (some ⟨2024, 5, 5⟩) (some ⟨2024, 5, 6⟩) = "Delayed" :=
  ⟨c5_status_rules.2.1 ⟨2024, 5, 5⟩ ⟨2024, 5, 4⟩ (by decide),
   c5_status_rules.2.2.1 ⟨2024, 5, 5⟩ ⟨2024, 5, 6⟩ (by decide)⟩

lemma lowerNat_compat (a b : Nat) (h : lowerNat a = lowerNat b) :
    upperNat a = upperNat b ∧ isAlphaNat a = isAlphaNat b := by
  unfold lowerNat at h
  constructor
  · unfold upperNat
    split_ifs at h <;> split_ifs <;> omega
  · unfold isAlphaNat
    apply decide_eq_decide.mpr
    split_ifs at h <;> omega

lemma lowerNat_eq_self_of_not_alpha (a : Nat) (h : isAlphaNat a = false) :
    lowerNat a = a := by
  unfold isAlphaNat at h
  rw [decide_eq_false_iff_not] at h
  unfold lowerNat
  split_ifs with h2
  · omega
  · rfl

lemma titleNats_congr (prev : Bool) (l l' : List Nat)
    (h : l.map lowerNat = l'.map lowerNat) :
    titleNats prev l = titleNats prev l' := by
  induction l generalizing prev l' with
  | nil =>
    cases l' with
    | nil => rfl
    | cons b bs => simp at h
  | cons a as ih =>
    cases l' with
    | nil => simp at h
    | cons b bs =>
      simp only [List.map_cons, List.cons.injEq] at h
      obtain ⟨h1, h2⟩ := h
      obtain ⟨hu, ha⟩ := lowerNat_compat a b h1
      by_cases hb : isAlphaNat a = true
      · have hb' : isAlphaNat b = true := ha ▸ hb
        cases prev with
        | false => simp [titleNats, hb, hb', hu, ih true bs h2]
        | true => simp [titleNats, hb, hb', h1, ih true bs h2]
      · have hb2 : isAlphaNat a = false := by
          revert hb; cases isAlphaNat a <;> simp
        have hb' : isAlphaNat b = false := ha ▸ hb2
        have hab : a = b := by
          rw [← lowerNat_eq_self_of_not_alpha a hb2,
            ← lowerNat_eq_self_of_not_alpha b hb', h1]
        simp [titleNats, hb2, hb', hab, ih false bs h2]

/-- C6 counterexample: the code does not trim — `" speedyship"` and
`"speedyship"` differ only in surrounding whitespace yet normalize to
different canonical strings (`" Speedyship"` vs `"Speedyship"`). -/
theorem c6_counterexample :
    normalizeCarrier (some " speedyship") ≠ normalizeCarrier (some "speedyship") := by
  decide

/-- C6 amended: carrier normalization title-cases the name without
trimming, maps the empty string and the missing value to `"Unknown"`, and
is insensitive to letter case (but not to surrounding whitespace): raw
strings differing only in ASCII letter case normalize to the identical
canonical string; `"speedyship"` and `"SPEEDYSHIP"` both normalize to
`"Speedyship"`. -/
theorem c6_carrier_normalization_amended :
    normalizeCarrier none = "Unknown"
    ∧ normalizeCarrier (some "") = "Unknown"
    ∧ (∀ s t : String,
        s.data.map (fun c => lowerNat c.toNat) = t.data.map (fun c => lowerNat c.toNat) →
        normalizeCarrier (some s) = normalizeCarrier (some t))
    ∧ normalizeCarrier (some "speedyship") = "Speedyship"
    ∧ normalizeCarrier (some "SPEEDYSHIP") = "Speedyship" := by
  refine ⟨rfl, by decide, fun s t h => ?_, by decide, by decide⟩
  have ht : pyTitle s = pyTitle t := by
    unfold pyTitle
    rw [titleNats_congr false (s.data.map Char.toNat) (t.data.map Char.toNat)
      (by simpa [List.map_map, Function.comp] using h)]
  simp [normalizeCarrier, ht]

/-- C6 witness: case-insensitivity applied to the concrete pair
`"speedyship"` / `"SpeedyShip"`. -/
theorem c6_carrier_normalization_witness :
    normalizeCarrier (some "speedyship") = normalizeCarrier (some "SpeedyShip") :=
  c6_carrier_normalization_amended.2.2.1 "speedyship" "SpeedyShip" (by decide)

lemma cleanCosts_eq_map (rows : List WRow) :
    cleanCosts rows = rows.map (costFill rows) := by
  unfold cleanCosts costFill globalMedianOf
  simp only [List.map_map]
  rfl

lemma median_perm {l l' : List Rat} (h : l.Perm l') : median l = median l' := by
  have hs : List.insertionSort (· ≤ ·) l = List.insertionSort (· ≤ ·) l' :=
    List.eq_of_perm_of_sorted
      ((List.perm_insertionSort _ l).trans (h.trans (List.perm_insertionSort _ l').symm))
      (List.sorted_insertionSort _ l) (List.sorted_insertionSort _ l')
  unfold median
  rw [hs]

lemma groupMedianCost_perm {rows rows' : List WRow} (h : rows.Perm rows')
    (c : Option String) : groupMedianCost rows c = groupMedianCost rows' c :=
  median_perm ((h.filter _).filterMap _)

/-- C7 amended: the per-carrier medians are computed once from the
absolute-valued known costs of the whole batch and the global fallback
median once from the group-filled column (not from the pre-fill known
costs), then both are applied per row with the two-tier fallback; no
statistic is recomputed as rows get filled, so each row's imputed value is
independent of the order of the batch. -/
theorem c7_cost_imputation_amended :
    (∀ rows : List WRow, cleanCosts rows = rows.map (costFill rows))
    ∧ (∀ rows rows' : List WRow, rows.Perm rows' →
        ∀ r, costFill rows r = costFill rows' r) := by
  refine ⟨cleanCosts_eq_map, fun rows rows' h r => ?_⟩
  have h1 : (rows.map absRow).Perm (rows'.map absRow) := h.map _
  have hgf : groupFillRow (rows.map absRow) = groupFillRow (rows'.map absRow) :=
    funext fun x => by unfold groupFillRow; rw [groupMedianCost_perm h1]
  have hglob : globalMedianOf rows = globalMedianOf rows' := by
    unfold globalMedianOf
    refine median_perm ?_
    rw [hgf]
    exact (h1.map _).filterMap _
  unfold costFill
  simp only [hgf, hglob]

/-- C7 counterexample: on `batchC7` the code's result differs from the
spec's prescription — the row of carrier D (whose group has no known cost)
is filled with `1`, the median of the group-filled column
`[1, 1, 1, 3, 9]`, while the median of the pre-fill known costs
`[1, 3, 9]` is `3`. -/
theorem c7_counterexample : cleanCosts batchC7 ≠ cleanCostsSpecModel batchC7 := by
  decide

/-- C7 witness: order-independence applied to a concrete batch and its
reversal. -/
theorem c7_cost_imputation_witness :
    costFill [mkRow "DHL-1" (some "A") (some 2), mkRow "DHL-2" (some "B") none]
        (mkRow "DHL-2" (some "B") none)
      = costFill [mkRow "DHL-2" (some "B") none, mkRow "DHL-1" (some "A") (some 2)]
        (mkRow "DHL-2" (some "B") none) :=
  c7_cost_imputation_amended.2
    [mkRow "DHL-1" (some "A") (some 2), mkRow "DHL-2" (some "B") none]
    [mkRow "DHL-2" (some "B") none, mkRow "DHL-1" (some "A") (some 2)]
    (List.Perm.swap _ _ _) (mkRow "DHL-2" (some "B") none)

lemma ratAbs_nonneg (c : Rat) : 0 ≤ ratAbs c := by
  unfold ratAbs
  split_ifs with h
  · linarith
  · linarith

lemma getD_nonneg {s : List Rat} (hmem : ∀ x ∈ s, 0 ≤ x) {i : Nat}
    (hi : i < s.length) : 0 ≤ s.getD i 0 := by
  rw [List.getD_eq_getElem s 0 hi]
  exact hmem _ (List.getElem_mem hi)

lemma median_isSome {l : List Rat} (h : l ≠ []) : (median l).isSome := by
  simp only [median]
  have hl : (List.insertionSort (· ≤ ·) l).length = l.length :=
    List.length_insertionSort _ _
  split_ifs with h0 h1
  · rw [hl, List.length_eq_zero] at h0
    exact absurd h0 h
  · simp
  · simp

lemma median_nonneg {l : List Rat} (h : ∀ x ∈ l, 0 ≤ x) {m : Rat}
    (hm : median l = some m) : 0 ≤ m := by
  simp only [median] at hm
  have hmem : ∀ x ∈ List.insertionSort (· ≤ ·) l, 0 ≤ x := fun x hx =>
    h x ((List.perm_insertionSort _ l).subset hx)
  by_cases h0 : (List.insertionSort (· ≤ ·) l).length = 0
  · rw [if_pos h0] at hm
    exact absurd hm (by simp)
  · rw [if_neg h0] at hm
    have hi2 : (List.insertionSort (· ≤ ·) l).length / 2
        < (List.insertionSort (· ≤ ·) l).length :=
      Nat.div_lt_self (Nat.pos_of_ne_zero h0) (by norm_num)
    by_cases h1 : (List.insertionSort (· ≤ ·) l).length % 2 = 1
    · rw [if_pos h1] at hm
      simp only [Option.some.injEq] at hm
      rw [← hm]
      exact getD_nonneg hmem hi2
    · rw [if_neg h1] at hm
      have hi1 : (List.insertionSort (· ≤ ·) l).length / 2 - 1
          < (List.insertionSort (· ≤ ·) l).length := by omega
      simp only [Option.some.injEq] at hm
      rw [← hm]
      exact div_nonneg
        (add_nonneg (getD_nonneg hmem hi1) (getD_nonneg hmem hi2)) (by norm_num)

/-- C8: whenever at least one cost in the batch is valid, the cost-cleaned
output has the same number of rows and every row carries a known,
non-negative shipping cost (negative inputs become their absolute value,
missing ones are filled by the group or global median, including for a
carrier group with no valid cost); on a batch with no valid cost at all the
step still returns a full row list (it never fails). -/
theorem c8_cost_safety :
    (∀ rows : List WRow, (cleanCosts rows).length = rows.length)
    ∧ (∀ rows : List WRow, (∃ r ∈ rows, r.ShippingCost.isSome) →
        ∀ r ∈ cleanCosts rows, ∃ v, r.ShippingCost = some v ∧ 0 ≤ v) := by
  constructor
  · intro rows
    simp [cleanCosts]
  · intro rows hex r hr
    have hA : ∀ x ∈ rows.map absRow, ∀ v, x.ShippingCost = some v → 0 ≤ v := by
      intro x hx v hv
      obtain ⟨y, _, rfl⟩ := List.mem_map.mp hx
      simp only [absRow] at hv
      obtain ⟨w, _, rfl⟩ := Option.map_eq_some'.mp hv
      exact ratAbs_nonneg w
    have hGm : ∀ c m, groupMedianCost (rows.map absRow) c = some m → 0 ≤ m := by
      intro c m hm
      refine median_nonneg ?_ hm
      intro x hx
      obtain ⟨y, hy, hyx⟩ := List.mem_filterMap.mp hx
      exact hA y (List.mem_of_mem_filter hy) x hyx
    have hB : ∀ x ∈ (rows.map absRow).map (groupFillRow (rows.map absRow)),
        ∀ v, x.ShippingCost = some v → 0 ≤ v := by
      intro x hx v hv
      obtain ⟨y, hy, rfl⟩ := List.mem_map.mp hx
      simp only [groupFillRow] at hv
      cases hyc : y.ShippingCost with
      | some w =>
        rw [hyc] at hv
        simp only [Option.orElse] at hv
        cases hv
        exact hA y hy v hyc
      | none =>
        rw [hyc] at hv
        simp only [Option.orElse] at hv
        exact hGm y.CarrierName v hv
    have hCnonneg : ∀ x ∈ ((rows.map absRow).map
        (groupFillRow (rows.map absRow))).filterMap (fun r => r.ShippingCost), 0 ≤ x := by
      intro x hx
      obtain ⟨y, hy, hyx⟩ := List.mem_filterMap.mp hx
      exact hB y hy x hyx
    have hne : ((rows.map absRow).map
        (groupFillRow (rows.map absRow))).filterMap (fun r => r.ShippingCost) ≠ [] := by
      obtain ⟨r0, hr0, hs0⟩ := hex
      obtain ⟨w, hw⟩ := Option.isSome_iff_exists.mp hs0
      refine List.ne_nil_of_mem (a := ratAbs w) (List.mem_filterMap.mpr ?_)
      refine ⟨groupFillRow (rows.map absRow) (absRow r0),
        List.mem_map_of_mem _ (List.mem_map_of_mem _ hr0), ?_⟩
      simp [groupFillRow, absRow, hw, Option.orElse]
    obtain ⟨g, hg⟩ := Option.isSome_iff_exists.mp (median_isSome hne)
    have hgnn : 0 ≤ g := median_nonneg hCnonneg hg
    simp only [cleanCosts] at hr
    obtain ⟨x, hx, rfl⟩ := List.mem_map.mp hr
    cases hxc : x.ShippingCost with
    | some w =>
      refine ⟨w, ?_, hB x hx w hxc⟩
      simp [hxc, Option.orElse]
    | none =>
      refine ⟨g, ?_, hgnn⟩
      simp only [hxc, Option.orElse]
      exact hg

/-- C8 witness: the safety property applied to the concrete batch
`rowsC8`, at its (cleaned) single row. -/
theorem c8_cost_safety_witness :
    ∃ v, (mkRow "DHL-1" (some "A") (some 5)).ShippingCost = some v ∧ 0 ≤ v :=
  c8_cost_safety.2 rowsC8 (by decide) (mkRow "DHL-1" (some "A") (some 5)) (by decide)

/-- C3: the cleaned output excludes a raw record exactly when its ship-date
field is absent or unparseable by both accepted formats — the retained
rows are, in order, precisely those whose ship date parses — and rows are
only dropped, never fabricated, so the output has at most as many rows as
the input. -/
theorem c3_ship_date_filter :
    ∀ df : List RawRecord,
      (clean_and_transform_data df).map (fun r => r.ShipmentID)
        = (df.filter (fun r => (parse_mixed_formats r.ShipDate).isSome)).map
            (fun r => r.ShipmentID)
      ∧ (clean_and_transform_data df).length ≤ df.length := by
  intro df
  constructor
  · simp only [clean_and_transform_data, cleanCosts_eq_map, List.map_map,
      List.filter_map, Function.comp]
    rfl
  · simp only [clean_and_transform_data, cleanCosts_eq_map, List.length_map]
    exact le_trans (List.length_filter_le _ _) (by simp)

lemma foldl_eq_self {α β : Type} (f : α → β → α) :
    ∀ (l : List β) (a : α), (∀ x ∈ l, f a x = a) → l.foldl f a = a
  | [], _, _ => rfl
  | x :: xs, a, h => by
    rw [List.foldl_cons, h x (List.mem_cons_self x xs)]
    exact foldl_eq_self f xs a fun y hy => h y (List.mem_cons_of_mem x hy)

lemma foldl_pres {α β : Type} (P : α → Prop) (f : α → β → α)
    (hstep : ∀ a x, P a → P (f a x)) :
    ∀ (l : List β) (a : α), P a → P (l.foldl f a)
  | [], _, ha => ha
  | x :: xs, a, ha => foldl_pres P f hstep xs (f a x) (hstep a x ha)

lemma foldl_mem_pres {α β : Type} (P : β → α → Prop) (f : α → β → α)
    (hstep : ∀ a x, P x (f a x)) (hmono : ∀ a x y, P y a → P y (f a x)) :
    ∀ (l : List β) (a : α) (x : β), x ∈ l → P x (l.foldl f a)
  | [], _, x, hx => absurd hx (List.not_mem_nil x)
  | z :: zs, a, x, hx => by
    rw [List.foldl_cons]
    rcases List.mem_cons.mp hx with rfl | hx'
    · exact foldl_pres (P x) f (fun b y => hmono b y x) zs (f a x) (hstep a x)
    · exact foldl_mem_pres P f hstep hmono zs (f a z) x hx'

lemma insertCarrier_locations (db : DB) (n : String) :
    (insertCarrier db n).locations = db.locations := by
  unfold insertCarrier; split_ifs <;> rfl

lemma insertDate_locations (db : DB) (r : DateRow) :
    (insertDate db r).locations = db.locations := by
  unfold insertDate; split_ifs <;> rfl

lemma insertFact_locations (db : DB) (sid : String)
    (sk pk ak oid did cid : Option Nat) (cost : Option Rat) (status : String) :
    (insertFact db sid sk pk ak oid did cid cost status).locations = db.locations := by
  unfold insertFact; split_ifs <;> rfl

lemma insertLocation_carriers (db : DB) (c s : String) :
    (insertLocation db c s).carriers = db.carriers := by
  unfold insertLocation; split_ifs <;> rfl

lemma insertDate_carriers (db : DB) (r : DateRow) :
    (insertDate db r).carriers = db.carriers := by
  unfold insertDate; split_ifs <;> rfl

lemma insertFact_carriers (db : DB) (sid : String)
    (sk pk ak oid did cid : Option Nat) (cost : Option Rat) (status : String) :
    (insertFact db sid sk pk ak oid did cid cost status).carriers = db.carriers := by
  unfold insertFact; split_ifs <;> rfl

lemma insertLocation_dates (db : DB) (c s : String) :
    (insertLocation db c s).dates = db.dates := by
  unfold insertLocation; split_ifs <;> rfl

lemma insertCarrier_dates (db : DB) (n : String) :
    (insertCarrier db n).dates = db.dates := by
  unfold insertCarrier; split_ifs <;> rfl

lemma insertFact_dates (db : DB) (sid : String)
    (sk pk ak oid did cid : Option Nat) (cost : Option Rat) (status : String) :
    (insertFact db sid sk pk ak oid did cid cost status).dates = db.dates := by
  unfold insertFact; split_ifs <;> rfl

lemma hasLoc_eq_of_locations {a b : DB} (h : a.locations = b.locations)
    (c s : String) : hasLoc a c s = hasLoc b c s := by
  unfold hasLoc; rw [h]

lemma hasCarrier_eq_of_carriers {a b : DB} (h : a.carriers = b.carriers)
    (n : String) : hasCarrier a n = hasCarrier b n := by
  unfold hasCarrier; rw [h]

lemma hasDateRow_eq_of_dates {a b : DB} (h : a.dates = b.dates)
    (r : DateRow) : hasDateRow a r = hasDateRow b r := by
  unfold hasDateRow; rw [h]

lemma hasLoc_insertLocation_self (db : DB) (c s : String) :
    hasLoc (insertLocation db c s) c s = true := by
  unfold insertLocation
  split_ifs with h
  · exact h
  · unfold hasLoc
    simp [List.any_append]

lemma hasLoc_insertLocation_mono (db : DB) (c s c' s' : String)
    (h : hasLoc db c s = true) : hasLoc (insertLocation db c' s') c s = true := by
  unfold insertLocation
  split_ifs with hh
  · exact h
  · unfold hasLoc at h ⊢
    simp only [List.any_append]
    simp [h]

lemma hasCarrier_insertCarrier_self (db : DB) (n : String) :
    hasCarrier (insertCarrier db n) n = true := by
  unfold insertCarrier
  split_ifs with h
  · exact h
  · unfold hasCarrier
    simp [List.any_append]

lemma hasCarrier_insertCarrier_mono (db : DB) (n n' : String)
    (h : hasCarrier db n = true) : hasCarrier (insertCarrier db n') n = true := by
  unfold insertCarrier
  split_ifs with hh
  · exact h
  · unfold hasCarrier at h ⊢
    simp only [List.any_append]
    simp [h]

lemma hasDateRow_insertDate_self (db : DB) (r : DateRow) :
    hasDateRow (insertDate db r) r = true := by
  unfold insertDate
  split_ifs with h
  · exact h
  · unfold hasDateRow
    simp [List.any_append]

lemma hasDateRow_insertDate_mono (db : DB) (r r' : DateRow)
    (h : hasDateRow db r = true) : hasDateRow (insertDate db r') r = true := by
  unfold insertDate
  split_ifs with hh
  · exact h
  · unfold hasDateRow at h ⊢
    simp only [List.any_append]
    simp [h]

lemma hasFact_insertFact_self (db : DB) (sid : String)
    (sk pk ak oid did cid : Option Nat) (cost : Option Rat) (status : String) :
    hasFact (insertFact db sid sk pk ak oid did cid cost status) sid = true := by
  unfold insertFact
  split_ifs with h
  · exact h
  · unfold hasFact
    simp [List.any_append]

lemma hasFact_insertFact_mono (db : DB) (sid sid' : String)
    (sk pk ak oid did cid : Option Nat) (cost : Option Rat) (status : String)
    (h : hasFact db sid = true) :
    hasFact (insertFact db sid' sk pk ak oid did cid cost status) sid = true := by
  unfold insertFact
  split_ifs with hh
  · exact h
  · unfold hasFact at h ⊢
    simp only [List.any_append]
    simp [h]

lemma insertLocation_of_present {db : DB} {c s : String}
    (h : hasLoc db c s = true) : insertLocation db c s = db := by
  unfold insertLocation; rw [if_pos h]

lemma insertCarrier_of_present {db : DB} {n : String}
    (h : hasCarrier db n = true) : insertCarrier db n = db := by
  unfold insertCarrier; rw [if_pos h]

lemma insertDate_of_present {db : DB} {r : DateRow}
    (h : hasDateRow db r = true) : insertDate db r = db := by
  unfold insertDate; rw [if_pos h]

lemma insertFact_of_present {db : DB} {sid : String}
    {sk pk ak oid did cid : Option Nat} {cost : Option Rat} {status : String}
    (h : hasFact db sid = true) :
    insertFact db sid sk pk ak oid did cid cost status = db := by
  unfold insertFact; rw [if_pos h]

lemma load_dimensions_false_eq (db : DB) (df : List CleanRecord) :
    load_dimensions false db df =
      (dateList df).foldl (fun a dt => insertDate a (mkDateRow dt))
        ((carrierList df).foldl (fun a n => insertCarrier a n)
          ((locationList df).foldl (fun a p => insertLocation a p.1 p.2) db)) := rfl

lemma load_fact_table_false_eq (db : DB) (df : List CleanRecord) :
    load_fact_table false db df = df.foldl (fun a r =>
      insertFact a r.ShipmentID
        ((db.dates.find? (fun l => l.FullDate == r.ShipDate)).map (fun l => l.DateKey))
        (r.PromisedDeliveryDate.bind (fun dt =>
          (db.dates.find? (fun l => l.FullDate == dt)).map (fun l => l.DateKey)))
        (r.ActualDeliveryDate.bind (fun dt =>
          (db.dates.find? (fun l => l.FullDate == dt)).map (fun l => l.DateKey)))
        ((db.locations.find? (fun l => l.City == r.OriginCity && l.State == r.OriginState)).map
          (fun l => l.LocationID))
        ((db.locations.find? (fun l =>
          l.City == r.DestinationCity && l.State == r.DestinationState)).map
          (fun l => l.LocationID))
        ((db.carriers.find? (fun l => l.CarrierName == r.CarrierName)).map
          (fun l => l.CarrierID))
        r.ShippingCost r.ShipmentStatus) db := rfl

lemma dims_present_after_load (db : DB) (df : List CleanRecord) :
    (∀ p ∈ locationList df, hasLoc (load_dimensions false db df) p.1 p.2 = true)
    ∧ (∀ n ∈ carrierList df, hasCarrier (load_dimensions false db df) n = true)
    ∧ (∀ dt ∈ dateList df,
        hasDateRow (load_dimensions false db df) (mkDateRow dt) = true) := by
  rw [load_dimensions_false_eq]
  set L1 := (locationList df).foldl (fun a p => insertLocation a p.1 p.2) db with hL1
  set L2 := (carrierList df).foldl (fun a n => insertCarrier a n) L1 with hL2
  refine ⟨?_, ?_, ?_⟩
  · intro p hp
    have h1 : hasLoc L1 p.1 p.2 = true := by
      rw [hL1]
      exact foldl_mem_pres (fun q a => hasLoc a q.1 q.2 = true) _
        (fun a q => hasLoc_insertLocation_self a q.1 q.2)
        (fun a q q' hq => hasLoc_insertLocation_mono a q'.1 q'.2 q.1 q.2 hq)
        (locationList df) db p hp
    have h2 : hasLoc L2 p.1 p.2 = true := by
      rw [hL2]
      refine foldl_pres (fun a => hasLoc a p.1 p.2 = true) _ ?_ (carrierList df) L1 h1
      intro a n ha
      show hasLoc (insertCarrier a n) p.1 p.2 = true
      rw [hasLoc_eq_of_locations (insertCarrier_locations a n)]
      exact ha
    refine foldl_pres (fun a => hasLoc a p.1 p.2 = true) _ ?_ (dateList df) L2 h2
    intro a dt ha
    show hasLoc (insertDate a (mkDateRow dt)) p.1 p.2 = true
    rw [hasLoc_eq_of_locations (insertDate_locations a (mkDateRow dt))]
    exact ha
  · intro n hn
    have h2 : hasCarrier L2 n = true := by
      rw [hL2]
      exact foldl_mem_pres (fun q a => hasCarrier a q = true) _
        (fun a q => hasCarrier_insertCarrier_self a q)
        (fun a q q' hq => hasCarrier_insertCarrier_mono a q' q hq)
        (carrierList df) L1 n hn
    refine foldl_pres (fun a => hasCarrier a n = true) _ ?_ (dateList df) L2 h2
    intro a dt ha
    show hasCarrier (insertDate a (mkDateRow dt)) n = true
    rw [hasCarrier_eq_of_carriers (insertDate_carriers a (mkDateRow dt))]
    exact ha
  · intro dt hdt
    exact foldl_mem_pres (fun q a => hasDateRow a (mkDateRow q) = true) _
      (fun a q => hasDateRow_insertDate_self a (mkDateRow q))
      (fun a q q' hq => hasDateRow_insertDate_mono a (mkDateRow q') (mkDateRow q) hq)
      (dateList df) L2 dt hdt

lemma load_dimensions_of_all_present {db : DB} {df : List CleanRecord}
    (hl : ∀ p ∈ locationList df, hasLoc db p.1 p.2 = true)
    (hc : ∀ n ∈ carrierList df, hasCarrier db n = true)
    (hd : ∀ dt ∈ dateList df, hasDateRow db (mkDateRow dt) = true) :
    load_dimensions false db df = db := by
  rw [load_dimensions_false_eq]
  rw [foldl_eq_self _ (locationList df) db
    (fun p hp => insertLocation_of_present (hl p hp))]
  rw [foldl_eq_self _ (carrierList df) db
    (fun n hn => insertCarrier_of_present (hc n hn))]
  exact foldl_eq_self _ (dateList df) db
    (fun dt hdt => insertDate_of_present (hd dt hdt))

lemma load_fact_table_of_all_present {db : DB} {df : List CleanRecord}
    (h : ∀ r ∈ df, hasFact db r.ShipmentID = true) :
    load_fact_table false db df = db := by
  rw [load_fact_table_false_eq]
  exact foldl_eq_self _ df db (fun r hr => insertFact_of_present (h r hr))

lemma facts_present_after_load (db : DB) (df : List CleanRecord) :
    ∀ r ∈ df, hasFact (load_fact_table false db df) r.ShipmentID = true := by
  intro r hr
  rw [load_fact_table_false_eq]
  exact foldl_mem_pres (fun q a => hasFact a q.ShipmentID = true) _
    (fun a q => hasFact_insertFact_self a q.ShipmentID _ _ _ _ _ _ _ _)
    (fun a q q' hq =>
      hasFact_insertFact_mono a q'.ShipmentID q.ShipmentID _ _ _ _ _ _ _ _ hq)
    df db r hr

lemma load_fact_table_dims_unchanged (db : DB) (df : List CleanRecord) :
    (load_fact_table false db df).locations = db.locations
    ∧ (load_fact_table false db df).carriers = db.carriers
    ∧ (load_fact_table false db df).dates = db.dates := by
  rw [load_fact_table_false_eq]
  refine ⟨?_, ?_, ?_⟩
  · refine foldl_pres (fun a : DB => a.locations = db.locations) _ ?_ df db rfl
    intro a r pa
    simp only [insertFact_locations]
    exact pa
  · refine foldl_pres (fun a : DB => a.carriers = db.carriers) _ ?_ df db rfl
    intro a r pa
    simp only [insertFact_carriers]
    exact pa
  · refine foldl_pres (fun a : DB => a.dates = db.dates) _ ?_ df db rfl
    intro a r pa
    simp only [insertFact_dates]
    exact pa

/-- C1: running the full dimension-plus-fact load a second time against the
same storage with the same clean record set leaves the storage unchanged —
every dimension and fact row already present is ignored, not duplicated,
not overwritten, so all row counts after two runs equal those after one;
and for two input records sharing a shipment id but differing in cost the
fact table ends with exactly one row for that id carrying the first
record's cost (first-write-wins). -/
theorem c1_idempotent_load :
    (∀ (db : DB) (df : List CleanRecord),
        mainLoad false false (mainLoad false false db df) df
          = mainLoad false false db df)
    ∧ (mainLoad false false (mainLoad false false emptyDB recsC1) recsC1).facts.map
        (fun f => (f.ShipmentID, f.ShippingCost)) = [("DHL-1", some 10)] := by
  constructor
  · intro db df
    obtain ⟨hLA, hCA, hDA⟩ := dims_present_after_load db df
    have hstab := load_fact_table_dims_unchanged (load_dimensions false db df) df
    have hLB : ∀ p ∈ locationList df,
        hasLoc (mainLoad false false db df) p.1 p.2 = true := fun p hp => by
      show hasLoc (load_fact_table false (load_dimensions false db df) df) p.1 p.2 = true
      rw [hasLoc_eq_of_locations hstab.1]
      exact hLA p hp
    have hCB : ∀ n ∈ carrierList df,
        hasCarrier (mainLoad false false db df) n = true := fun n hn => by
      show hasCarrier (load_fact_table false (load_dimensions false db df) df) n = true
      rw [hasCarrier_eq_of_carriers hstab.2.1]
      exact hCA n hn
    have hDB2 : ∀ dt ∈ dateList df,
        hasDateRow (mainLoad false false db df) (mkDateRow dt) = true := fun dt hdt => by
      show hasDateRow (load_fact_table false (load_dimensions false db df) df)
        (mkDateRow dt) = true
      rw [hasDateRow_eq_of_dates hstab.2.2]
      exact hDA dt hdt
    have hFB : ∀ r ∈ df, hasFact (mainLoad false false db df) r.ShipmentID = true :=
      facts_present_after_load (load_dimensions false db df) df
    show load_fact_table false
      (load_dimensions false (mainLoad false false db df) df) df
        = mainLoad false false db df
    rw [load_dimensions_of_all_present hLB hCB hDB2]
    exact load_fact_table_of_all_present hFB
  · decide

/-- C2 counterexample: a storage failure during the dimension load does
not prevent the fact load from running — on `recsC1` from an empty store,
with the dimension phase failing (and correctly rolled back to an empty
dimension state), the fact phase still executes and inserts a fact row. -/
theorem c2_counterexample :
    (mainLoad true false emptyDB recsC1).locations = []
    ∧ (mainLoad true false emptyDB recsC1).facts ≠ [] := by
  decide

/-- C2 amended: a storage failure during a load phase rolls that phase
back in full (no partial state from the phase persists) and the error is
reported, but the pipeline does not halt: the fact load still runs after a
dimension-load failure, against the rolled-back state. -/
theorem c2_rollback_without_halt :
    (∀ (db : DB) (df : List CleanRecord), load_dimensions true db df = db)
    ∧ (∀ (db : DB) (df : List CleanRecord), load_fact_table true db df = db)
    ∧ (∀ (db : DB) (df : List CleanRecord),
        mainLoad true false db df = load_fact_table false db df) :=
  ⟨fun _ _ => rfl, fun _ _ => rfl, fun _ _ => rfl⟩

lemma dateRowConsistent_mkDateRow (dt : Date) :
    dateRowConsistent (mkDateRow dt) = true := by
  simp [dateRowConsistent, mkDateRow, dateKey, quarterOf]

/-- C9: the dimension load only ever inserts date rows whose surrogate key
equals the date formatted as a `YYYYMMDD` integer and whose year, quarter,
month, day and weekday are the pure functions of `FullDate` — so if every
date row of the storage is consistent before a load, every date row is
consistent after it — and for `FullDate` 2023-07-15 the constructed row is
(20230715, 2023-07-15, 2023, 3, 7, 15, 5). -/
theorem c9_date_dimension_consistency :
    (∀ (fail : Bool) (db : DB) (df : List CleanRecord),
        db.dates.all dateRowConsistent = true →
        (load_dimensions fail db df).dates.all dateRowConsistent = true)
    ∧ mkDateRow ⟨2023, 7, 15⟩ = ⟨20230715, ⟨2023, 7, 15⟩, 2023, 3, 7, 15, 5⟩ := by
  constructor
  · intro fail db df hdb
    cases fail
    · rw [load_dimensions_false_eq]
      have hbase1 : ((locationList df).foldl
          (fun a p => insertLocation a p.1 p.2) db).dates = db.dates := by
        refine foldl_pres (fun a : DB => a.dates = db.dates) _ ?_ (locationList df) db rfl
        intro a p pa
        simp only [insertLocation_dates]
        exact pa
      have hbase : ((carrierList df).foldl (fun a n => insertCarrier a n)
          ((locationList df).foldl (fun a p => insertLocation a p.1 p.2) db)).dates
            = db.dates := by
        refine foldl_pres (fun a : DB => a.dates = db.dates) _ ?_ (carrierList df) _ hbase1
        intro a n pa
        simp only [insertCarrier_dates]
        exact pa
      refine foldl_pres (fun a : DB => a.dates.all dateRowConsistent = true) _ ?_
        (dateList df) _ ?_
      · intro a dt pa
        show (insertDate a (mkDateRow dt)).dates.all dateRowConsistent = true
        unfold insertDate
        split_ifs with h
        · exact pa
        · simp [List.all_append, pa, dateRowConsistent_mkDateRow]
      · show ((carrierList df).foldl (fun a n => insertCarrier a n)
            ((locationList df).foldl (fun a p => insertLocation a p.1 p.2) db)).dates.all
              dateRowConsistent = true
        rw [hbase]
        exact hdb
    · exact hdb
  · decide

/-- C9 witness: the preservation property applied at the empty storage and
the concrete batch `recsC1` (whose dates include 2023-07-15). -/
theorem c9_date_dimension_consistency_witness :
    (load_dimensions false emptyDB recsC1).dates.all dateRowConsistent = true :=
  c9_date_dimension_consistency.1 false emptyDB recsC1 (by decide)

/-- C10: the transformation mutates its input in place and returns the
same record-collection object it was given — after the call the caller's
raw reference holds the cleaned table (missing-ship-date rows dropped and
the date, carrier, cost and status columns overwritten) and can no longer
observe the raw table, while every other reference is untouched. -/
theorem c10_inplace_mutation :
    ∀ (store : Nat → DFVal) (r : Nat) (rows : List RawRecord),
      store r = .raw rows →
      (clean_and_transform_inplace r store).1 = r
      ∧ (clean_and_transform_inplace r store).2 r
          = .cleaned (clean_and_transform_data rows)
      ∧ (clean_and_transform_inplace r store).2 r ≠ .raw rows
      ∧ ∀ i, i ≠ r → (clean_and_transform_inplace r store).2 i = store i := by
  intro store r rows h
  unfold clean_and_transform_inplace
  rw [h]
  exact ⟨rfl, by simp, by simp, fun i hi => by simp [hi]⟩

/-- C10 witness: the in-place contract applied to the concrete store
`storeC10` at reference 0. -/
theorem c10_inplace_mutation_witness :
    (clean_and_transform_inplace 0 storeC10).1 = 0
    ∧ (clean_and_transform_inplace 0 storeC10).2 0
        = .cleaned (clean_and_transform_data [rawC10])
    ∧ (clean_and_transform_inplace 0 storeC10).2 1 = storeC10 1 :=
  ⟨(c10_inplace_mutation storeC10 0 [rawC10] rfl).1,
   (c10_inplace_mutation storeC10 0 [rawC10] rfl).2.1,
   (c10_inplace_mutation storeC10 0 [rawC10] rfl).2.2.2 1 (by decide)⟩

end DHL
